import Mathlib

/-!
Verification of the greenlight middleware pipeline (cmd/api) against its
specification.  The Go code is shallowly embedded: each middleware becomes a
total Lean function from a request (carrying the handful of header values the
pipeline reads) to a response classification, threading state explicitly where
the Go code mutates it (the rate limiter's client map, the metrics response
writer).  External collaborators (the `data` package's user/permission stores
and token validation, which live outside the embedded sources) enter as
function-valued fields of the `App` structure or are modelled from the spec,
as marked on each definition.
-/

namespace Greenlight

/-! ## Data model -/

/-- Modelled from the spec (§3 Principal): the `data.User` type of the
`internal/data` package is not under the embedded sources.  The spec's
Principal is `{id, activated, isAnonymous}`; `data.AnonymousUser` is a
well-known sentinel and `IsAnonymous` detects it. -/
structure User where
  id : Nat
  activated : Bool
  anonymous : Bool
deriving DecidableEq, Repr

/-- Modelled from the spec: the anonymous sentinel Principal
(`data.AnonymousUser`), never activated. -/
def AnonymousUser : User := { id := 0, activated := false, anonymous := true }

/-- `data.User.IsAnonymous` (modelled from the spec: compares against the
anonymous sentinel). -/
def User.IsAnonymous (u : User) : Bool := u.anonymous

/-- Errors returned by the token-lookup collaborator
(`app.models.Users.GetForToken`): `data.ErrRecordNotFound` or any other
database error. -/
inductive LookupError where
  | recordNotFound
  | other (msg : String)
deriving DecidableEq, Repr

/-- `data.ScopeAuthentication` (modelled from the spec: the lookup is scoped
to "authentication" tokens). -/
def ScopeAuthentication : String := "authentication"

/-- Modelled from the spec (§6): `data.PermissionRead` = `movies:read`. -/
def PermissionRead : String := "movies:read"

/-- Modelled from the spec (§6): `data.PermissionWrite` = `movies:write`. -/
def PermissionWrite : String := "movies:write"

/-- Modelled from the spec (§3 PermissionSet): `data.Permissions` is a set of
string codes; `Include` is membership. -/
def PermissionsInclude (perms : List String) (code : String) : Bool :=
  perms.contains code

/-- Modelled from the spec (§6): the configuration surface consumed by the
pipeline — rate-limiter enabled flag, requests-per-second, burst size, CORS
trusted-origin list, shutdown grace period.  The owning `config` struct
(main.go) is not under the embedded sources.  Times and rates are rationals
(the Go code uses float64 seconds). -/
structure Config where
  limiterEnabled : Bool
  rps : ℚ
  burst : ℚ
  trustedOrigins : List String
  shutdownGracePeriodSeconds : ℚ

/-- The application's external collaborators, as consumed by the middleware:
`validToken` stands for `data.ValidateTokenPlaintext` composed with
`validator.Valid` (the token shape check, modelled from the spec: syntactic,
with no side effects); `getForToken` is `app.models.Users.GetForToken`
(scope, plaintext); `getAllForUser` is
`app.models.Permissions.GetAllForUser`. -/
structure App where
  config : Config
  validToken : String → Bool
  getForToken : String → String → Except LookupError User
  getAllForUser : Nat → Except String (List String)

/-- The header values of an inbound request that the pipeline reads, at the
level of Go's `r.Header.Get` (which returns the empty string for an absent
header). -/
structure Request where
  method : String
  path : String
  authorization : String
  origin : String
  acrMethod : String

/-- Classification of what the pipeline does with a request: which error
response is written, or which business handler is invoked.  `panicked` marks
the `contextGetUser` panic on a missing user value. -/
inductive Res where
  | handlerInvoked (name : String)
  | invalidAuthenticationToken
  | authenticationRequired
  | inactiveAccount
  | notPermitted
  | serverError
  | rateLimitExceeded
  | corsPreflight
  | notFound
  | methodNotAllowed
  | panicked
deriving DecidableEq, Repr

/-- Whether a result is the missing-user panic. -/
def Res.isPanic : Res → Bool
  | .panicked => true
  | _ => false

/-! ## Go string splitting

`strings.Split(s, sep)` for a one-character separator: split at every
occurrence of the separator; `strings.Split("", sep) = [""]`. -/

/-- Accumulator worker for `goSplit`: `acc` holds the current field's
characters in reverse. -/
def goSplitAux (sep : Char) : List Char → List Char → List String
  | [], acc => [String.mk acc.reverse]
  | c :: rest, acc =>
    if c = sep then String.mk acc.reverse :: goSplitAux sep rest []
    else goSplitAux sep rest (c :: acc)

/-- Model of Go `strings.Split(s, sep)` for a single-character separator. -/
def goSplit (sep : Char) (s : String) : List String := goSplitAux sep s.toList []

/-! ## contextGetUser / contextSetUser (context.go)

The request context's user slot is an `Option User`: `contextSetUser` stores
`some user`; `contextGetUser` panics when the slot is empty. -/

/-- Result of `contextGetUser`: the stored user, or the panic
"missing user value in request context". -/
inductive GetUserResult where
  | ok (u : User)
  | panicMissingUser
deriving DecidableEq, Repr

/-- `app.contextGetUser` (context.go): type-asserts the context value,
panicking when it is absent. -/
def contextGetUser : Option User → GetUserResult
  | some u => .ok u
  | none => .panicMissingUser

/-! ## authenticate (middleware.go lines 81–120) -/

/-- `app.authenticate`: adds `Vary: Authorization` (header effects are
modelled separately for the CORS/metrics stages); with no Authorization
header attaches the anonymous sentinel and proceeds; otherwise requires the
exact two-token `Bearer <credential>` shape, the syntactic token check, and a
successful scoped lookup, mapping `ErrRecordNotFound` to the same
invalid-credential response as the shape failures and any other lookup error
to a server error.  `next` receives the context user slot set by
`contextSetUser`. -/
def authenticate (app : App) (req : Request) (next : Option User → Res) : Res :=
  if req.authorization = "" then next (some AnonymousUser)
  else
    match goSplit ' ' req.authorization with
    | [scheme, token] =>
      if scheme = "Bearer" then
        if app.validToken token then
          match app.getForToken ScopeAuthentication token with
          | .error .recordNotFound => .invalidAuthenticationToken
          | .error (.other _) => .serverError
          | .ok user => next (some user)
        else .invalidAuthenticationToken
      else .invalidAuthenticationToken
    | _ => .invalidAuthenticationToken

/-! ## Authorization chain (middleware.go lines 122–168) -/

/-- `app.requireAuthenticatedUser`: reads the context user (panicking when it
is absent) and rejects the anonymous sentinel with the
authentication-required response. -/
def requireAuthenticatedUser (next : Option User → Res) (ctx : Option User) : Res :=
  match contextGetUser ctx with
  | .panicMissingUser => .panicked
  | .ok user => if user.IsAnonymous then .authenticationRequired else next ctx

/-- `app.requireActivatedUser`: wraps an activation check in
`requireAuthenticatedUser`. -/
def requireActivatedUser (next : Option User → Res) : Option User → Res :=
  requireAuthenticatedUser fun ctx =>
    match contextGetUser ctx with
    | .panicMissingUser => .panicked
    | .ok user => if !user.activated then .inactiveAccount else next ctx

/-- `app.requirePermission`: fetches the context user's permission set and
rejects when `code` is absent, wrapped in `requireActivatedUser`. -/
def requirePermission (app : App) (code : String) (next : Option User → Res) :
    Option User → Res :=
  requireActivatedUser fun ctx =>
    match contextGetUser ctx with
    | .panicMissingUser => .panicked
    | .ok user =>
      match app.getAllForUser user.id with
      | .error _ => .serverError
      | .ok perms =>
        if !PermissionsInclude perms code then .notPermitted else next ctx

/-! ## Route dispatch (`app.routes`) -/

/-- `httprouter` matching for the `/v1/movies/:id` pattern: exactly one
further nonempty path segment. -/
def isMoviesIdPath (p : String) : Bool :=
  match goSplit '/' p with
  | ["", "v1", "movies", id] => id != ""
  | _ => false

/-- The `httprouter` dispatch of `app.routes` with each route's registered
middleware wrapping: the five movie routes sit behind `requirePermission`
(read or write), the user/token routes and `/v1/healthcheck` are bare, and
`GET /debug/vars` serves the `expvar` metrics handler bare.  Unmatched paths
yield the not-found response; a matched path with an unregistered method the
method-not-allowed response. -/
def routerDispatch (app : App) (ctx : Option User) (req : Request) : Res :=
  if req.path = "/v1/healthcheck" then
    if req.method = "GET" then .handlerInvoked "healthcheck" else .methodNotAllowed
  else if req.path = "/v1/movies" then
    if req.method = "GET" then
      requirePermission app PermissionRead (fun _ => .handlerInvoked "listMovies") ctx
    else if req.method = "POST" then
      requirePermission app PermissionWrite (fun _ => .handlerInvoked "createMovie") ctx
    else .methodNotAllowed
  else if isMoviesIdPath req.path then
    if req.method = "GET" then
      requirePermission app PermissionRead (fun _ => .handlerInvoked "showMovie") ctx
    else if req.method = "PATCH" then
      requirePermission app PermissionWrite (fun _ => .handlerInvoked "updateMovie") ctx
    else if req.method = "DELETE" then
      requirePermission app PermissionWrite (fun _ => .handlerInvoked "deleteMovie") ctx
    else .methodNotAllowed
  else if req.path = "/v1/users" then
    if req.method = "POST" then .handlerInvoked "registerUser" else .methodNotAllowed
  else if req.path = "/v1/users/activated" then
    if req.method = "PUT" then .handlerInvoked "activateUser" else .methodNotAllowed
  else if req.path = "/v1/tokens/authentication" then
    if req.method = "POST" then .handlerInvoked "createAuthenticationToken"
    else .methodNotAllowed
  else if req.path = "/debug/vars" then
    if req.method = "GET" then .handlerInvoked "expvar" else .methodNotAllowed
  else .notFound

/-! ## Rate limiter (middleware.go lines 32–75) -/

/-- State of a `golang.org/x/time/rate` token bucket: refill rate in tokens
per second, burst capacity, current tokens, time of the last state update.
The library's float64 token counts are modelled as rationals. -/
structure Limiter where
  rps : ℚ
  burst : ℚ
  tokens : ℚ
  last : ℚ
deriving DecidableEq, Repr

/-- The lazy refill of `rate.Limiter.advance`: tokens accrued from the
elapsed time since the last state update, clamped at the burst capacity. -/
def Limiter.refill (l : Limiter) (now : ℚ) : ℚ :=
  let tokens := l.tokens + l.rps * (now - l.last)
  if l.burst < tokens then l.burst else tokens

/-- `rate.Limiter.Allow` at time `now`: lazily refill from the elapsed time,
and consume one token when at least one is available; on refusal the stored
limiter state is left unchanged (x/time/rate persists the advanced state
only for a granted reservation). -/
def Limiter.allow (l : Limiter) (now : ℚ) : Bool × Limiter :=
  if 1 ≤ l.refill now then (true, { l with tokens := l.refill now - 1, last := now })
  else (false, l)

/-- `rate.NewLimiter(rps, burst)` as first used at time `now`: a fresh
limiter exposes a full bucket. -/
def newLimiter (rps burst now : ℚ) : Limiter :=
  { rps := rps, burst := burst, tokens := burst, last := now }

/-- A `client` entry of the rate limiter's map: limiter state plus the
`lastSeen` stamp consulted by the background eviction sweep. -/
structure ClientEntry where
  limiter : Limiter
  lastSeen : ℚ
deriving DecidableEq, Repr

/-- The rate limiter's `clients` map, as an association list. -/
abbrev ClientMap := List (String × ClientEntry)

/-- Read of the `clients` map. -/
def lookupClient : ClientMap → String → Option ClientEntry
  | [], _ => none
  | (ip0, c) :: rest, ip => if ip0 = ip then some c else lookupClient rest ip

/-- Write of the `clients` map: replace the entry for `ip`, or insert it. -/
def setClient : ClientMap → String → ClientEntry → ClientMap
  | [], ip, c => [(ip, c)]
  | (ip0, c0) :: rest, ip, c =>
    if ip0 = ip then (ip0, c) :: rest else (ip0, c0) :: setClient rest ip c

/-- The per-request body of `app.rateLimit` at time `now` for client
identity `ip`: when the limiter is enabled, create the entry on a
first-seen identity, set `lastSeen` to the current time unconditionally,
then consult `Allow`; returns whether the request proceeds to the next
stage, together with the updated map.  When the limiter is disabled the
request proceeds with the map untouched. -/
def rateLimitCheck (cfg : Config) (clients : ClientMap) (ip : String) (now : ℚ) :
    Bool × ClientMap :=
  if cfg.limiterEnabled then
    let entry : ClientEntry :=
      match lookupClient clients ip with
      | none => { limiter := newLimiter cfg.rps cfg.burst now, lastSeen := 0 }
      | some c => c
    let entry := { entry with lastSeen := now }
    let allowRes := entry.limiter.allow now
    (allowRes.1, setClient clients ip { entry with limiter := allowRes.2 })
  else (true, clients)

/-! ## enableCORS (middleware.go lines 170–200) -/

/-- Response headers in write order. -/
abbrev Headers := List (String × String)

/-- `http.Header.Add`: append the name/value pair. -/
def addHeader (hs : Headers) (n v : String) : Headers := hs ++ [(n, v)]

/-- `http.Header.Set`: replace every pair of the same name. -/
def setHeader (hs : Headers) (n v : String) : Headers :=
  hs.filter (fun p => p.1 != n) ++ [(n, v)]

/-- Read of the value most recently set for a header name. -/
def getHeader (hs : Headers) (n : String) : Option String :=
  ((hs.filter (fun p => p.1 == n)).getLast?).map Prod.snd

/-- Whether the response headers contain the given name/value pair. -/
def hasHeaderPair (hs : Headers) (n v : String) : Bool :=
  hs.any (fun p => p.1 == n && p.2 == v)

/-- Outcome of the CORS stage: the response headers it wrote, and the status
of a pre-flight short circuit (`none` means the next stage is invoked). -/
structure CorsOut where
  headers : Headers
  shortCircuit : Option Nat
deriving DecidableEq, Repr

/-- The `for _, o := range trustedOrigins` loop of `enableCORS`: on the
first origin match, echo the origin in `Access-Control-Allow-Origin`; when
the request is additionally a pre-flight probe (method OPTIONS with a
non-empty `Access-Control-Request-Method`), set the pre-flight headers and
write status 200, stopping the chain; otherwise break out of the loop and
fall through to the next stage. -/
def corsOriginLoop (req : Request) (hs : Headers) : List String → CorsOut
  | [] => { headers := hs, shortCircuit := none }
  | o :: rest =>
    if req.origin = o then
      let hs := setHeader hs "Access-Control-Allow-Origin" req.origin
      if req.method = "OPTIONS" ∧ req.acrMethod ≠ "" then
        let hs := setHeader hs "Access-Control-Allow-Methods" "OPTIONS, PUT, PATCH, DELETE"
        let hs := setHeader hs "Access-Control-Allow-Headers" "Authorization, Content-Type"
        { headers := hs, shortCircuit := some 200 }
      else { headers := hs, shortCircuit := none }
    else corsOriginLoop req hs rest

/-- `app.enableCORS`: adds `Vary: Origin` and then a header with the literal
(misspelled) name `Vart` and value `Access-Control-Request-Method`, then
runs the trusted-origin loop when an Origin header is present. -/
def enableCORS (trusted : List String) (req : Request) : CorsOut :=
  let hs := addHeader [] "Vary" "Origin"
  let hs := addHeader hs "Vart" "Access-Control-Request-Method"
  if req.origin ≠ "" then corsOriginLoop req hs trusted
  else { headers := hs, shortCircuit := none }

/-! ## The assembled pipeline (`app.routes`) -/

/-- The chain wrapped by `recoverPanic` in `app.routes` —
`enableCORS(rateLimit(authenticate(router)))` — for one request at time
`now` from client identity `ip`, threading the rate limiter's client map. -/
def handleInner (app : App) (clients : ClientMap) (ip : String) (now : ℚ)
    (req : Request) : Res × ClientMap :=
  match (enableCORS app.config.trustedOrigins req).shortCircuit with
  | some _ => (.corsPreflight, clients)
  | none =>
    let limited := rateLimitCheck app.config clients ip now
    if limited.1 then
      (authenticate app req (fun ctx => routerDispatch app ctx req), limited.2)
    else (.rateLimitExceeded, limited.2)

/-- `app.recoverPanic`: a panic escaping the inner chain is recovered into
the 500 server-error response (with the connection marked for closure). -/
def recoverPanicRes : Res → Res
  | .panicked => .serverError
  | r => r

/-- The full `app.routes` chain at the response-classification level:
`metrics` (which leaves the response unchanged) around `recoverPanic`
around the inner chain. -/
def handleRequest (app : App) (clients : ClientMap) (ip : String) (now : ℚ)
    (req : Request) : Res × ClientMap :=
  let inner := handleInner app clients ip now req
  (recoverPanicRes inner.1, inner.2)

/-! ## Metrics (middleware.go lines 206–260) -/

/-- The mutable fields of `metricsResponseWriter`. -/
structure MetricsWriterState where
  statusCode : Nat
  headerWritten : Bool
deriving DecidableEq, Repr

/-- `newMetricsResponseWriter`: status code initialised to `http.StatusOK`,
`headerWritten` left false. -/
def newMetricsResponseWriter : MetricsWriterState :=
  { statusCode := 200, headerWritten := false }

/-- A call the wrapped handler makes on its `http.ResponseWriter`. -/
inductive WriterCall where
  | writeHeader (statusCode : Nat)
  | write (b : List Nat)
deriving DecidableEq, Repr

/-- A call the `metricsResponseWriter` forwards to the underlying
`http.ResponseWriter`. -/
inductive UnderlyingCall where
  | writeHeader (statusCode : Nat)
  | write (b : List Nat)
deriving DecidableEq, Repr

/-- One method call on the `metricsResponseWriter`: `WriteHeader` records
the code and forwards it (without touching `headerWritten`); `Write` first
forwards an implicit `WriteHeader(200)` when `headerWritten` is still
false, marking it, then forwards the body write. -/
def mwStep (s : MetricsWriterState) : WriterCall → MetricsWriterState × List UnderlyingCall
  | .writeHeader c => ({ s with statusCode := c }, [.writeHeader c])
  | .write b =>
    if s.headerWritten then (s, [.write b])
    else ({ s with headerWritten := true }, [.writeHeader 200, .write b])

/-- Run a handler's sequence of writer calls through the
`metricsResponseWriter`, collecting the forwarded calls. -/
def mwRun (s : MetricsWriterState) : List WriterCall → MetricsWriterState × List UnderlyingCall
  | [] => (s, [])
  | ev :: rest =>
    let step := mwStep s ev
    let tail := mwRun step.1 rest
    (tail.1, step.2 ++ tail.2)

/-- `expvar.Map.Add`: add `d` to the counter for `k`, creating it at zero
first when absent. -/
def mapAdd : List (String × Int) → String → Int → List (String × Int)
  | [], k, d => [(k, d)]
  | (k0, v) :: rest, k, d =>
    if k0 = k then (k0, v + d) :: rest else (k0, v) :: mapAdd rest k d

/-- Read of an `expvar.Map` counter (zero when absent). -/
def mapGet : List (String × Int) → String → Int
  | [], _ => 0
  | (k0, v) :: rest, k => if k0 = k then v else mapGet rest k

/-- The `expvar` counters owned by the `metrics` middleware. -/
structure MetricsState where
  totalRequestsReceived : Int
  totalResponsesSent : Int
  totalResponsesSentByStatus : List (String × Int)
  totalProcessingTimeMicros : Int
deriving DecidableEq, Repr

/-- The per-request body of `app.metrics`: count the request, run the
handler through a fresh `metricsResponseWriter`, then count the response
under the decimal rendering of the recorded status code and accumulate the
processing time. -/
def metricsRun (ms : MetricsState) (events : List WriterCall) (durationMicros : Int) :
    MetricsState :=
  let finalStatus := (mwRun newMetricsResponseWriter events).1.statusCode
  { totalRequestsReceived := ms.totalRequestsReceived + 1
    totalResponsesSent := ms.totalResponsesSent + 1
    totalResponsesSentByStatus :=
      mapAdd ms.totalResponsesSentByStatus (toString finalStatus) 1
    totalProcessingTimeMicros := ms.totalProcessingTimeMicros + durationMicros }

/-- The status a handler trace explicitly set last, if any: the reference
value for what the metrics stage must record (specification side). -/
def lastExplicitStatus : List WriterCall → Option Nat
  | [] => none
  | .writeHeader c :: rest => some ((lastExplicitStatus rest).getD c)
  | .write _ :: rest => lastExplicitStatus rest

/-! ## serve (server.go) -/

/-- Errors surfacing in `serve`: `http.ErrServerClosed` from the listen
loop after `Shutdown` begins, the context deadline error `Shutdown` returns
when the grace period elapses before in-flight requests drain, or any other
listener/shutdown error. -/
inductive ServeError where
  | errServerClosed
  | shutdownTimeout
  | other (msg : String)
deriving DecidableEq, Repr

/-- The `Shutdown` context deadline hard-coded in `serve`
(`context.WithTimeout(..., 30*time.Second)`), in seconds, as a function of
the configuration: the code ignores the configuration entirely. -/
def serveShutdownGraceSeconds (_cfg : Config) : ℚ := 30

/-- The sequential error plumbing of `serve`, with the results of the
concurrent parts as parameters: `listenRes` is what `ListenAndServe`
returned (`none` for nil), `shutdownRes` what the signal goroutine sent on
`shutdownError` (the result of `srv.Shutdown`).  A listen error other than
`ErrServerClosed` is returned at once; otherwise `serve` waits for the
shutdown goroutine and returns its error, or nil. -/
def serve (listenRes shutdownRes : Option ServeError) : Option ServeError :=
  match listenRes with
  | some e =>
    if e = .errServerClosed then
      match shutdownRes with
      | some e2 => some e2
      | none => none
    else some e
  | none =>
    match shutdownRes with
    | some e2 => some e2
    | none => none

/-! ## Shared concrete instances for witnesses -/

/-- A concrete user for witness instantiations. -/
def sampleUser : User := { id := 7, activated := true, anonymous := false }

/-- Concrete collaborators for witness instantiations: token `tok1` is
unknown, `tok2` hits a database fault, `tok3` resolves to `sampleUser`
(who holds only the read permission); the token `bad` fails the syntactic
check. -/
def sampleApp : App :=
  { config :=
      { limiterEnabled := false, rps := 2, burst := 4, trustedOrigins := ["https://allowed.example"]
        shutdownGracePeriodSeconds := 30 }
    validToken := fun t => t != "bad"
    getForToken := fun _ t =>
      if t = "tok1" then .error .recordNotFound
      else if t = "tok2" then .error (.other "db down")
      else if t = "tok3" then .ok sampleUser
      else .error .recordNotFound
    getAllForUser := fun uid => if uid = 7 then .ok ["movies:read"] else .error "db down" }

/-- A concrete enabled-limiter configuration (2 requests/second, burst 4). -/
def cfg4 : Config :=
  { limiterEnabled := true, rps := 2, burst := 4, trustedOrigins := []
    shutdownGracePeriodSeconds := 30 }

/-- A concrete limiter with one token left, last updated at time 5. -/
def lim4 : Limiter := { rps := 2, burst := 4, tokens := 1, last := 5 }

/-- A concrete client map with one seen identity. -/
def clients4 : ClientMap := [("1.2.3.4", { limiter := lim4, lastSeen := 5 })]

/-- A concrete limiter with an empty bucket and no refill (rate zero). -/
def lim0 : Limiter := { rps := 0, burst := 1, tokens := 0, last := 5 }

/-- A concrete client map whose one entry can never be granted a token. -/
def clients0 : ClientMap := [("1.2.3.4", { limiter := lim0, lastSeen := 5 })]

/-- A concrete configuration whose shutdown grace period is 10 seconds. -/
def cfg10 : Config :=
  { limiterEnabled := false, rps := 0, burst := 0, trustedOrigins := []
    shutdownGracePeriodSeconds := 10 }

/-- A concrete pre-flight probe from an allowed origin. -/
def preflightReq : Request :=
  { method := "OPTIONS", path := "/v1/movies", authorization := ""
    origin := "https://allowed.example", acrMethod := "PUT" }

/-! ## Claim C1: authenticate's failure classification -/

/-- C1.  For every Authorization header value, `authenticate` classifies
failures as follows: a header not matching the exact two-token
`Bearer <credential>` shape, a credential failing the syntactic validity
check, and a token-lookup not-found result all yield the same
invalid-credential response (indistinguishable from one another), while any
other lookup failure yields a server error, which is a distinct response. -/
theorem authenticate_failure_classes (app : App) (next : Option User → Res) :
    (∀ req : Request, req.authorization ≠ "" →
      (∀ t : String, goSplit ' ' req.authorization ≠ ["Bearer", t]) →
      authenticate app req next = .invalidAuthenticationToken)
  ∧ (∀ (req : Request) (t : String),
      goSplit ' ' req.authorization = ["Bearer", t] →
      app.validToken t = false →
      authenticate app req next = .invalidAuthenticationToken)
  ∧ (∀ (req : Request) (t : String),
      goSplit ' ' req.authorization = ["Bearer", t] →
      app.validToken t = true →
      app.getForToken ScopeAuthentication t = .error .recordNotFound →
      authenticate app req next = .invalidAuthenticationToken)
  ∧ (∀ (req : Request) (t msg : String),
      goSplit ' ' req.authorization = ["Bearer", t] →
      app.validToken t = true →
      app.getForToken ScopeAuthentication t = .error (.other msg) →
      authenticate app req next = .serverError
        ∧ Res.serverError ≠ Res.invalidAuthenticationToken) := by
  refine ⟨?_, ?_, ?_, ?_⟩
  · intro req hne hshape
    unfold authenticate
    rw [if_neg hne]
    rcases hsplit : goSplit ' ' req.authorization with _ | ⟨s, _ | ⟨t, _ | rest⟩⟩
    · rfl
    · rfl
    · by_cases hs : s = "Bearer"
      · exact absurd hsplit (hs ▸ hshape t)
      · simp [hs]
    · rfl
  · intro req t hsplit hvalid
    unfold authenticate
    have hne : req.authorization ≠ "" := by
      intro h
      rw [h] at hsplit
      simp [goSplit, goSplitAux] at hsplit
    rw [if_neg hne, hsplit]
    simp [hvalid]
  · intro req t hsplit hvalid hlook
    unfold authenticate
    have hne : req.authorization ≠ "" := by
      intro h
      rw [h] at hsplit
      simp [goSplit, goSplitAux] at hsplit
    rw [if_neg hne, hsplit]
    simp [hvalid, hlook]
  · intro req t msg hsplit hvalid hlook
    have hne : req.authorization ≠ "" := by
      intro h
      rw [h] at hsplit
      simp [goSplit, goSplitAux] at hsplit
    refine ⟨?_, by decide⟩
    unfold authenticate
    rw [if_neg hne, hsplit]
    simp [hvalid, hlook]

/-- Witness for C1 at concrete inputs: a `Basic` scheme header (bad shape),
a syntactically invalid bearer token, an unknown token, and a token whose
lookup faults. -/
theorem authenticate_failure_classes_witness :
    authenticate sampleApp
        { method := "GET", path := "/v1/healthcheck", authorization := "Basic xyz",
          origin := "", acrMethod := "" } (fun _ => .handlerInvoked "h")
      = .invalidAuthenticationToken
  ∧ authenticate sampleApp
        { method := "GET", path := "/v1/healthcheck", authorization := "Bearer bad",
          origin := "", acrMethod := "" } (fun _ => .handlerInvoked "h")
      = .invalidAuthenticationToken
  ∧ authenticate sampleApp
        { method := "GET", path := "/v1/healthcheck", authorization := "Bearer tok1",
          origin := "", acrMethod := "" } (fun _ => .handlerInvoked "h")
      = .invalidAuthenticationToken
  ∧ authenticate sampleApp
        { method := "GET", path := "/v1/healthcheck", authorization := "Bearer tok2",
          origin := "", acrMethod := "" } (fun _ => .handlerInvoked "h")
      = .serverError := by
  obtain ⟨h1, h2, h3, h4⟩ :=
    authenticate_failure_classes sampleApp (fun _ => .handlerInvoked "h")
  refine ⟨?_, ?_, ?_, ?_⟩
  · refine h1 _ (by decide) ?_
    intro t h
    have hs : goSplit ' ' "Basic xyz" = ["Basic", "xyz"] := by decide
    rw [hs] at h
    injection h with hhead _
    exact absurd hhead (by decide)
  · exact h2 _ "bad" (by decide) (by decide)
  · exact h3 _ "tok1" (by decide) (by decide) rfl
  · exact (h4 _ "tok2" "db down" (by decide) (by decide) rfl).1

/-! ## Helper lemmas: the authorization chain on an attached user -/

/-- With no Authorization header, `authenticate` attaches the anonymous
sentinel and proceeds. -/
theorem authenticate_no_header (app : App) (req : Request)
    (next : Option User → Res) (h : req.authorization = "") :
    authenticate app req next = next (some AnonymousUser) := by
  unfold authenticate
  rw [if_pos h]


/-- `requirePermission` on an attached (`some`) user, unfolded through the
whole chain: anonymous check first, then activation, then the permission
lookup and membership test. -/
theorem requirePermission_some (app : App) (code : String)
    (next : Option User → Res) (u : User) :
    requirePermission app code next (some u)
      = if u.IsAnonymous then .authenticationRequired
        else if !u.activated then .inactiveAccount
        else
          match app.getAllForUser u.id with
          | .error _ => .serverError
          | .ok perms =>
            if !PermissionsInclude perms code then .notPermitted else next (some u) := rfl

/-- `requireAuthenticatedUser` never panics on an attached user when its
continuation does not. -/
theorem requireAuthenticatedUser_no_panic (next : Option User → Res) (u : User)
    (h : ∀ v : User, (next (some v)).isPanic = false) :
    (requireAuthenticatedUser next (some u)).isPanic = false := by
  have hred : requireAuthenticatedUser next (some u)
      = if u.IsAnonymous then .authenticationRequired else next (some u) := rfl
  rw [hred]
  cases hu : u.IsAnonymous
  · simp [h u]
  · simp [Res.isPanic]

/-- `requireActivatedUser` never panics on an attached user when its
continuation does not. -/
theorem requireActivatedUser_no_panic (next : Option User → Res) (u : User)
    (h : ∀ v : User, (next (some v)).isPanic = false) :
    (requireActivatedUser next (some u)).isPanic = false := by
  unfold requireActivatedUser
  refine requireAuthenticatedUser_no_panic _ u (fun v => ?_)
  show (if !v.activated then Res.inactiveAccount else next (some v)).isPanic = false
  cases hv : v.activated
  · rfl
  · exact h v

/-- `requirePermission` never panics on an attached user when its
continuation does not. -/
theorem requirePermission_no_panic (app : App) (code : String)
    (next : Option User → Res) (u : User)
    (h : ∀ v : User, (next (some v)).isPanic = false) :
    (requirePermission app code next (some u)).isPanic = false := by
  unfold requirePermission
  refine requireActivatedUser_no_panic _ u (fun v => ?_)
  show (match app.getAllForUser v.id with
        | .error _ => Res.serverError
        | .ok perms =>
          if !PermissionsInclude perms code then Res.notPermitted
          else next (some v)).isPanic = false
  cases hp : app.getAllForUser v.id with
  | error e => simp [Res.isPanic]
  | ok perms =>
    show (if (!PermissionsInclude perms code) = true then Res.notPermitted
          else next (some v)).isPanic = false
    cases hi : PermissionsInclude perms code
    · rfl
    · exact h v

/-- The router never panics when dispatching a request with an attached
user. -/
theorem routerDispatch_no_panic (app : App) (u : User) (req : Request) :
    (routerDispatch app (some u) req).isPanic = false := by
  unfold routerDispatch
  split_ifs <;>
    first
      | rfl
      | exact requirePermission_no_panic _ _ _ u (fun _ => rfl)

/-- `authenticate` never panics when its continuation does not panic on
attached users: every path either writes a response or attaches a user. -/
theorem authenticate_no_panic (app : App) (req : Request)
    (next : Option User → Res) (h : ∀ v : User, (next (some v)).isPanic = false) :
    (authenticate app req next).isPanic = false := by
  unfold authenticate
  by_cases h1 : req.authorization = ""
  · simp [h1, h AnonymousUser]
  · rw [if_neg h1]
    cases hs : goSplit ' ' req.authorization with
    | nil => rfl
    | cons s rest =>
      cases rest with
      | nil => rfl
      | cons t rest2 =>
        cases rest2 with
        | nil =>
          by_cases hb : s = "Bearer"
          · subst hb
            cases hv : app.validToken t
            · simp [hv, Res.isPanic]
            · cases hg : app.getForToken ScopeAuthentication t with
              | error e => cases e <;> simp [hv, hg, Res.isPanic]
              | ok user => simp [hv, hg, h user]
          · simp [hb, Res.isPanic]
        | cons u2 rest3 => rfl

/-! ## Claim C2: a principal is always attached before authorization -/

/-- C2.  Through the assembled pipeline, every request that reaches the
router — and hence any of `requireAuthenticatedUser`,
`requireActivatedUser`, `requirePermission` — carries exactly one attached
user, so the chain inside `recoverPanic` can never produce the
`contextGetUser` panic; and `authenticate` attaches precisely the anonymous
sentinel when no Authorization header was sent, or the user resolved from a
valid credential. -/
theorem pipeline_principal_attached :
    (∀ (app : App) (clients : ClientMap) (ip : String) (now : ℚ) (req : Request),
      ((handleInner app clients ip now req).1).isPanic = false)
  ∧ (∀ (app : App) (req : Request) (next : Option User → Res),
      req.authorization = "" → authenticate app req next = next (some AnonymousUser))
  ∧ (∀ (app : App) (req : Request) (next : Option User → Res) (t : String) (u : User),
      goSplit ' ' req.authorization = ["Bearer", t] →
      app.validToken t = true →
      app.getForToken ScopeAuthentication t = .ok u →
      authenticate app req next = next (some u)) := by
  refine ⟨?_, ?_, ?_⟩
  · intro app clients ip now req
    unfold handleInner
    cases hsc : (enableCORS app.config.trustedOrigins req).shortCircuit
    · cases hok : (rateLimitCheck app.config clients ip now).1
      · simp [hok, Res.isPanic]
      · simp only [hok, if_true]
        exact authenticate_no_panic app req _ (fun v => routerDispatch_no_panic app v req)
    · rfl
  · intro app req next h1
    unfold authenticate
    rw [if_pos h1]
  · intro app req next t u hs hv hg
    unfold authenticate
    have h1 : req.authorization ≠ "" := by
      intro h
      rw [h] at hs
      simp [goSplit, goSplitAux] at hs
    rw [if_neg h1]
    simp [hs, hv, hg]

/-- Witness for C2: with the sample collaborators, a request with no
Authorization header proceeds with the anonymous sentinel attached, and a
request bearing the known token `tok3` proceeds with the resolved user
attached — the continuation observing an attached user in both cases. -/
theorem pipeline_principal_attached_witness :
    authenticate sampleApp
        { method := "GET", path := "/v1/healthcheck", authorization := "",
          origin := "", acrMethod := "" }
        (fun ctx => if ctx.isSome then .handlerInvoked "h" else .panicked)
      = .handlerInvoked "h"
  ∧ authenticate sampleApp
        { method := "GET", path := "/v1/healthcheck", authorization := "Bearer tok3",
          origin := "", acrMethod := "" }
        (fun ctx => if ctx.isSome then .handlerInvoked "h" else .panicked)
      = .handlerInvoked "h"
  ∧ ((handleInner sampleApp [] "1.2.3.4" 0
        { method := "GET", path := "/v1/healthcheck", authorization := "",
          origin := "", acrMethod := "" }).1).isPanic = false := by
  obtain ⟨h0, h2, h3⟩ := pipeline_principal_attached
  refine ⟨?_, ?_, h0 sampleApp [] "1.2.3.4" 0 _⟩
  · exact (h2 sampleApp _ _ rfl).trans rfl
  · exact (h3 sampleApp _ _ "tok3" sampleUser (by decide) (by decide) rfl).trans rfl

/-! ## Claim C3: permission check ordering on POST /v1/movies -/

/-- The router sends `POST /v1/movies` to the create-movie handler wrapped
in `requirePermission movies:write`. -/
theorem routerDispatch_post_movies (app : App) (ctx : Option User) :
    routerDispatch app ctx
        { method := "POST", path := "/v1/movies", authorization := "",
          origin := "", acrMethod := "" }
      = requirePermission app PermissionWrite
          (fun _ => .handlerInvoked "createMovie") ctx := rfl

/-- C3.  A `POST /v1/movies` request dispatched for an attached activated,
authenticated (non-anonymous) user whose permission set lacks
`movies:write` receives the permission-denied response — never
authentication-required and never inactive-account; and the checks fire in
the fixed order on the same route: an anonymous user receives
authentication-required, an authenticated but non-activated user receives
inactive-account. -/
theorem post_movies_permission_order :
    (∀ (app : App) (u : User) (perms : List String),
      u.IsAnonymous = false → u.activated = true →
      app.getAllForUser u.id = .ok perms →
      PermissionsInclude perms PermissionWrite = false →
      routerDispatch app (some u)
          { method := "POST", path := "/v1/movies", authorization := "",
            origin := "", acrMethod := "" } = .notPermitted)
  ∧ (∀ (app : App) (u : User), u.IsAnonymous = true →
      routerDispatch app (some u)
          { method := "POST", path := "/v1/movies", authorization := "",
            origin := "", acrMethod := "" } = .authenticationRequired)
  ∧ (∀ (app : App) (u : User), u.IsAnonymous = false → u.activated = false →
      routerDispatch app (some u)
          { method := "POST", path := "/v1/movies", authorization := "",
            origin := "", acrMethod := "" } = .inactiveAccount) := by
  refine ⟨?_, ?_, ?_⟩
  · intro app u perms hanon hact hperm hinc
    rw [routerDispatch_post_movies, requirePermission_some]
    simp [hanon, hact, hperm, hinc]
  · intro app u hanon
    rw [routerDispatch_post_movies, requirePermission_some]
    simp [hanon]
  · intro app u hanon hact
    rw [routerDispatch_post_movies, requirePermission_some]
    simp [hanon, hact]

/-- Witness for C3: the sample user (activated, authenticated, holding only
`movies:read`) is refused `POST /v1/movies` with permission-denied; the
anonymous sentinel gets authentication-required; a non-activated user gets
inactive-account. -/
theorem post_movies_permission_order_witness :
    routerDispatch sampleApp (some sampleUser)
        { method := "POST", path := "/v1/movies", authorization := "",
          origin := "", acrMethod := "" } = .notPermitted
  ∧ routerDispatch sampleApp (some AnonymousUser)
        { method := "POST", path := "/v1/movies", authorization := "",
          origin := "", acrMethod := "" } = .authenticationRequired
  ∧ routerDispatch sampleApp (some { id := 8, activated := false, anonymous := false })
        { method := "POST", path := "/v1/movies", authorization := "",
          origin := "", acrMethod := "" } = .inactiveAccount := by
  obtain ⟨h1, h2, h3⟩ := post_movies_permission_order
  exact ⟨h1 sampleApp sampleUser ["movies:read"] rfl rfl rfl (by decide),
         h2 sampleApp AnonymousUser rfl,
         h3 sampleApp _ rfl rfl⟩

/-! ## Claim C4: the rate limiter's Allow path for a seen identity -/

/-- The `clients` map after `setClient` resolves the written identity to the
written entry. -/
theorem lookupClient_setClient (m : ClientMap) (ip : String) (c : ClientEntry) :
    lookupClient (setClient m ip c) ip = some c := by
  induction m with
  | nil => simp [setClient, lookupClient]
  | cons p rest ih =>
    obtain ⟨ip0, c0⟩ := p
    by_cases h : ip0 = ip
    · simp [setClient, lookupClient, h]
    · simp [setClient, lookupClient, h, ih]

/-- C4 (amended).  In the rate limiter's path for a seen identity: when at
least one token is available after the lazy refill, one token is consumed,
`lastSeen` is updated, and the request is admitted (true); otherwise the
request is rejected (false) with the bucket left unchanged — but `lastSeen`
is refreshed in both branches, because the middleware stamps it
unconditionally before consulting the limiter, not only on the
token-consuming branch. -/
theorem rateLimit_allow_spec (cfg : Config) (clients : ClientMap) (ip : String)
    (now : ℚ) (c : ClientEntry)
    (hen : cfg.limiterEnabled = true) (hseen : lookupClient clients ip = some c) :
    (1 ≤ c.limiter.refill now →
      (rateLimitCheck cfg clients ip now).1 = true
      ∧ lookupClient (rateLimitCheck cfg clients ip now).2 ip =
          some { limiter := { c.limiter with tokens := c.limiter.refill now - 1, last := now }
                 lastSeen := now })
  ∧ (c.limiter.refill now < 1 →
      (rateLimitCheck cfg clients ip now).1 = false
      ∧ lookupClient (rateLimitCheck cfg clients ip now).2 ip =
          some { limiter := c.limiter, lastSeen := now }) := by
  have key : rateLimitCheck cfg clients ip now
      = ((c.limiter.allow now).1,
         setClient clients ip { limiter := (c.limiter.allow now).2, lastSeen := now }) := by
    unfold rateLimitCheck
    rw [hen, hseen]
    rfl
  constructor
  · intro hge
    have hallow : c.limiter.allow now
        = (true, { c.limiter with tokens := c.limiter.refill now - 1, last := now }) := by
      unfold Limiter.allow
      rw [if_pos hge]
    rw [key, hallow]
    exact ⟨rfl, lookupClient_setClient clients ip _⟩
  · intro hlt
    have hallow : c.limiter.allow now = (false, c.limiter) := by
      unfold Limiter.allow
      rw [if_neg (not_le.mpr hlt)]
    rw [key, hallow]
    exact ⟨rfl, lookupClient_setClient clients ip _⟩

/-- Witness for C4 (admitting branch) at concrete inputs: one token
refills to three at time 6, one is consumed, and the stored entry carries
`lastSeen = 6`. -/
theorem rateLimit_allow_spec_witness :
    (1:ℚ) ≤ lim4.refill 6
  ∧ (rateLimitCheck cfg4 clients4 "1.2.3.4" 6).1 = true
  ∧ lookupClient (rateLimitCheck cfg4 clients4 "1.2.3.4" 6).2 "1.2.3.4" =
      some { limiter := { lim4 with tokens := lim4.refill 6 - 1, last := 6 }
             lastSeen := 6 } := by
  have href : (1:ℚ) ≤ lim4.refill 6 := by norm_num [Limiter.refill, lim4]
  have hseen : lookupClient clients4 "1.2.3.4" =
      some { limiter := lim4, lastSeen := 5 } := rfl
  obtain ⟨h1, h2⟩ :=
    (rateLimit_allow_spec cfg4 clients4 "1.2.3.4" 6
      { limiter := lim4, lastSeen := 5 } rfl hseen).1 href
  exact ⟨href, h1, h2⟩

/-- C4 counterexample: a seen identity whose bucket is empty and never
refills (rate zero) is rejected at time 7, yet its stored `lastSeen` is
updated from 5 to 7 — refuting the claim that `lastSeen` is not updated on
the rejecting branch. -/
theorem rateLimit_lastSeen_counterexample :
    (rateLimitCheck cfg4 clients0 "1.2.3.4" 7).1 = false
  ∧ lookupClient clients0 "1.2.3.4" = some { limiter := lim0, lastSeen := 5 }
  ∧ lookupClient (rateLimitCheck cfg4 clients0 "1.2.3.4" 7).2 "1.2.3.4" =
      some { limiter := lim0, lastSeen := 7 }
  ∧ (7:ℚ) ≠ 5 := by
  have hnot : ¬ (1:ℚ) ≤ lim0.refill 7 := by norm_num [Limiter.refill, lim0]
  have hallow : lim0.allow 7 = (false, lim0) := by
    unfold Limiter.allow
    rw [if_neg hnot]
  have key : rateLimitCheck cfg4 clients0 "1.2.3.4" 7
      = ((lim0.allow 7).1,
         setClient clients0 "1.2.3.4" { limiter := (lim0.allow 7).2, lastSeen := 7 }) := rfl
  refine ⟨?_, rfl, ?_, by norm_num⟩
  · rw [key, hallow]
  · rw [key, hallow]
    rfl

/-! ## Claim C5: serve's shutdown behaviour -/

/-- C5 (amended).  The Shutdown deadline `serve` uses is the hard-coded 30
seconds, whatever the configuration says; `serve` returns nil exactly when
the listener closed cleanly (nil or `ErrServerClosed` from the listen loop)
and the shutdown goroutine reported no error; and a deadline-exceeded error
from `Shutdown` is propagated as `serve`'s return value rather than being
swallowed. -/
theorem serve_shutdown_spec :
    (∀ cfg : Config, serveShutdownGraceSeconds cfg = 30)
  ∧ (∀ listenRes shutdownRes : Option ServeError,
      serve listenRes shutdownRes = none ↔
        ((listenRes = none ∨ listenRes = some .errServerClosed) ∧ shutdownRes = none))
  ∧ serve (some .errServerClosed) (some .shutdownTimeout) = some .shutdownTimeout := by
  refine ⟨fun _ => rfl, ?_, rfl⟩
  intro lr sr
  cases lr with
  | none => cases sr <;> simp [serve]
  | some e => cases e <;> cases sr <;> simp [serve]

/-- C5 counterexample: with a configured 10-second grace period, `serve`
still uses the hard-coded 30-second deadline. -/
theorem serve_grace_not_from_config :
    serveShutdownGraceSeconds cfg10 = 30
  ∧ cfg10.shutdownGracePeriodSeconds = 10
  ∧ (30:ℚ) ≠ 10 :=
  ⟨rfl, rfl, by norm_num⟩

/-! ## Claims C6 and C9: metrics status recording -/

/-- The status the metrics writer ends with is the last explicitly set
status, or the writer's starting status when the handler never called
`WriteHeader`. -/
theorem mwRun_statusCode (events : List WriterCall) (s : MetricsWriterState) :
    (mwRun s events).1.statusCode = (lastExplicitStatus events).getD s.statusCode := by
  induction events generalizing s with
  | nil => rfl
  | cons ev rest ih =>
    cases ev with
    | writeHeader c =>
      have hstep : (mwRun s (WriterCall.writeHeader c :: rest)).1
          = (mwRun { s with statusCode := c } rest).1 := rfl
      rw [hstep, ih]
      simp [lastExplicitStatus]
    | write b =>
      have hstep : (mwRun s (WriterCall.write b :: rest)).1
          = (mwRun (mwStep s (.write b)).1 rest).1 := rfl
      rw [hstep]
      cases hw : s.headerWritten
      · have h2 : (mwStep s (WriterCall.write b)).1 = { s with headerWritten := true } := by
          simp [mwStep, hw]
        rw [h2, ih]
        simp [lastExplicitStatus]
      · have h2 : (mwStep s (WriterCall.write b)).1 = s := by
          simp [mwStep, hw]
        rw [h2, ih]
        simp [lastExplicitStatus]

/-- Specialisation to a fresh metrics writer: the recorded status defaults
to 200. -/
theorem mwRun_statusCode_new (events : List WriterCall) :
    (mwRun newMetricsResponseWriter events).1.statusCode
      = (lastExplicitStatus events).getD 200 := by
  rw [mwRun_statusCode]
  rfl

/-- `expvar.Map.Add` increments exactly the addressed counter. -/
theorem mapGet_mapAdd (m : List (String × Int)) (k : String) (d : Int) :
    mapGet (mapAdd m k d) k = mapGet m k + d := by
  induction m with
  | nil => simp [mapAdd, mapGet]
  | cons p rest ih =>
    obtain ⟨k0, v⟩ := p
    by_cases h : k0 = k
    · simp [mapAdd, mapGet, h]
    · simp [mapAdd, mapGet, h, ih]

/-- A trace of body writes alone sets no explicit status. -/
theorem lastExplicitStatus_writes (bs : List (List Nat)) :
    lastExplicitStatus (bs.map WriterCall.write) = none := by
  induction bs with
  | nil => rfl
  | cons b rest ih => simp [lastExplicitStatus, ih]

/-- A trace whose only `WriteHeader` call has argument `c` has `c` as its
last explicit status. -/
theorem lastExplicitStatus_single (pre post : List (List Nat)) (c : Nat) :
    lastExplicitStatus
        (pre.map WriterCall.write ++ WriterCall.writeHeader c :: post.map WriterCall.write)
      = some c := by
  induction pre with
  | nil => simp [lastExplicitStatus, lastExplicitStatus_writes post]
  | cons b rest ih => simpa [lastExplicitStatus] using ih

/-- C6.  The metrics stage increments the per-status-code counter for the
status the handler actually produced: the recorded status is the argument
of the handler's (last) explicit `WriteHeader` call, defaulting to 200 when
the handler only writes a body (or writes nothing); and the counter keyed
by that status's decimal rendering grows by exactly one. -/
theorem metrics_status_recording :
    (∀ events : List WriterCall,
      (mwRun newMetricsResponseWriter events).1.statusCode
        = (lastExplicitStatus events).getD 200)
  ∧ (∀ (ms : MetricsState) (events : List WriterCall) (d : Int),
      mapGet (metricsRun ms events d).totalResponsesSentByStatus
          (toString ((lastExplicitStatus events).getD 200))
        = mapGet ms.totalResponsesSentByStatus
            (toString ((lastExplicitStatus events).getD 200)) + 1)
  ∧ (∀ (pre post : List (List Nat)) (c : Nat),
      (mwRun newMetricsResponseWriter
          (pre.map WriterCall.write ++ WriterCall.writeHeader c :: post.map WriterCall.write)
        ).1.statusCode = c)
  ∧ (∀ bs : List (List Nat),
      (mwRun newMetricsResponseWriter (bs.map WriterCall.write)).1.statusCode = 200) := by
  refine ⟨mwRun_statusCode_new, ?_, ?_, ?_⟩
  · intro ms events d
    show mapGet (mapAdd ms.totalResponsesSentByStatus
        (toString ((mwRun newMetricsResponseWriter events).1.statusCode)) 1)
        (toString ((lastExplicitStatus events).getD 200)) = _
    rw [mwRun_statusCode_new]
    exact mapGet_mapAdd _ _ 1
  · intro pre post c
    rw [mwRun_statusCode_new, lastExplicitStatus_single]
    rfl
  · intro bs
    rw [mwRun_statusCode_new, lastExplicitStatus_writes]
    rfl

/-- C9.  `metricsResponseWriter.WriteHeader` records the status code but
does not set the `headerWritten` flag, so a handler that calls
`WriteHeader(c)` and then `Write` causes the underlying writer's
`WriteHeader` to be invoked twice — first with `c`, then with 200 — while
the recorded status stays `c`. -/
theorem metricsWriter_double_writeHeader (c : Nat) (b : List Nat) (s : MetricsWriterState) :
    mwRun newMetricsResponseWriter [.writeHeader c, .write b]
      = ({ statusCode := c, headerWritten := true },
         [.writeHeader c, .writeHeader 200, .write b])
  ∧ (mwStep s (.writeHeader c)).1.headerWritten = s.headerWritten :=
  ⟨rfl, rfl⟩

/-! ## Claims C7 and C8: the CORS gate -/

/-- Filtering for a name after filtering that name away yields nothing. -/
theorem filter_eq_of_filter_ne (hs : Headers) (n : String) :
    (hs.filter (fun p => p.1 != n)).filter (fun p => p.1 == n) = [] := by
  induction hs with
  | nil => rfl
  | cons p rest ih =>
    by_cases h : p.1 = n
    · simp [List.filter_cons, h, ih]
    · have hb : (p.1 == n) = false := beq_eq_false_iff_ne.mpr h
      simp [List.filter_cons, h, hb, ih]

/-- Filtering a different name away commutes out of a name filter. -/
theorem filter_eq_of_filter_ne2 (hs : Headers) (n n2 : String) (h : n2 ≠ n) :
    (hs.filter (fun p => p.1 != n2)).filter (fun p => p.1 == n)
      = hs.filter (fun p => p.1 == n) := by
  induction hs with
  | nil => rfl
  | cons p rest ih =>
    by_cases hp : p.1 = n2
    · have hb : (p.1 == n) = false := beq_eq_false_iff_ne.mpr (by rw [hp]; exact h)
      simp [List.filter_cons, hp, hb, ih, h]
    · simp [List.filter_cons, hp, ih]

/-- After `setHeader`, reading the set name yields the set value. -/
theorem getHeader_setHeader (hs : Headers) (n v : String) :
    getHeader (setHeader hs n v) n = some v := by
  unfold getHeader setHeader
  rw [List.filter_append, filter_eq_of_filter_ne]
  simp

/-- `setHeader` for one name leaves reads of another name unchanged. -/
theorem getHeader_setHeader_ne (hs : Headers) (n n2 v2 : String) (h : n2 ≠ n) :
    getHeader (setHeader hs n2 v2) n = getHeader hs n := by
  unfold getHeader setHeader
  rw [List.filter_append, filter_eq_of_filter_ne2 hs n n2 h]
  have hnil : List.filter (fun p => p.1 == n) [(n2, v2)] = [] := by
    simp [List.filter_cons, beq_eq_false_iff_ne.mpr h]
  rw [hnil, List.append_nil]

/-- `List.any` is unchanged by a filter that keeps every satisfying
element. -/
theorem any_filter_subsume (hs : Headers) (q f : String × String → Bool)
    (hqf : ∀ p, f p = true → q p = true) :
    (hs.filter q).any f = hs.any f := by
  induction hs with
  | nil => rfl
  | cons p rest ih =>
    cases hq : q p
    · have hf : f p = false := by
        cases hfp : f p
        · rfl
        · have := hqf p hfp
          rw [hq] at this
          exact absurd this (by simp)
      simp [List.filter_cons, hq, List.any_cons, hf, ih]
    · simp [List.filter_cons, hq, List.any_cons, ih]

/-- `setHeader` of one name does not change whether a pair under a
different name is present. -/
theorem hasHeaderPair_setHeader_ne (hs : Headers) (n v n2 v2 : String) (h : n2 ≠ n) :
    hasHeaderPair (setHeader hs n2 v2) n v = hasHeaderPair hs n v := by
  unfold hasHeaderPair setHeader
  rw [List.any_append, any_filter_subsume]
  · simp [beq_eq_false_iff_ne.mpr h]
  · intro p hf
    have h1 : p.1 = n := by
      have hand := (Bool.and_eq_true _ _).mp hf
      exact beq_iff_eq.mp hand.1
    have h2 : (p.1 == n2) = false :=
      beq_eq_false_iff_ne.mpr (by rw [h1]; exact fun hh => h hh.symm)
    simp [bne, h2]

/-- The trusted-origin loop only ever sets the three
`Access-Control-Allow-*` names, so presence of any pair under a different
name is invariant across it. -/
theorem corsOriginLoop_preserves (req : Request) (hs : Headers)
    (trusted : List String) (n v : String)
    (hn1 : n ≠ "Access-Control-Allow-Origin")
    (hn2 : n ≠ "Access-Control-Allow-Methods")
    (hn3 : n ≠ "Access-Control-Allow-Headers") :
    hasHeaderPair (corsOriginLoop req hs trusted).headers n v = hasHeaderPair hs n v := by
  induction trusted with
  | nil => rfl
  | cons o rest ih =>
    unfold corsOriginLoop
    by_cases h : req.origin = o
    · rw [if_pos h]
      by_cases hpf : req.method = "OPTIONS" ∧ req.acrMethod ≠ ""
      · rw [if_pos hpf]
        show hasHeaderPair (setHeader (setHeader (setHeader hs
            "Access-Control-Allow-Origin" req.origin)
            "Access-Control-Allow-Methods" "OPTIONS, PUT, PATCH, DELETE")
            "Access-Control-Allow-Headers" "Authorization, Content-Type") n v = _
        rw [hasHeaderPair_setHeader_ne _ _ _ _ _ (fun hh => hn3 hh.symm),
            hasHeaderPair_setHeader_ne _ _ _ _ _ (fun hh => hn2 hh.symm),
            hasHeaderPair_setHeader_ne _ _ _ _ _ (fun hh => hn1 hh.symm)]
      · rw [if_neg hpf]
        show hasHeaderPair (setHeader hs "Access-Control-Allow-Origin" req.origin) n v = _
        exact hasHeaderPair_setHeader_ne _ _ _ _ _ (fun hh => hn1 hh.symm)
    · rw [if_neg h]
      exact ih

/-- The trusted-origin loop on an origin present in the list, for a
pre-flight probe: the loop stops with status 200 and the pre-flight
headers set over the incoming header list. -/
theorem corsOriginLoop_match (req : Request) (hs : Headers) (trusted : List String)
    (hmem : req.origin ∈ trusted)
    (hopt : req.method = "OPTIONS") (hacr : req.acrMethod ≠ "") :
    corsOriginLoop req hs trusted
      = { headers := setHeader (setHeader
            (setHeader hs "Access-Control-Allow-Origin" req.origin)
            "Access-Control-Allow-Methods" "OPTIONS, PUT, PATCH, DELETE")
            "Access-Control-Allow-Headers" "Authorization, Content-Type"
          shortCircuit := some 200 } := by
  induction trusted with
  | nil => exact absurd hmem (List.not_mem_nil _)
  | cons o rest ih =>
    unfold corsOriginLoop
    by_cases h : req.origin = o
    · rw [if_pos h, if_pos ⟨hopt, hacr⟩]
    · have hrest : req.origin ∈ rest := by
        cases List.mem_cons.mp hmem with
        | inl hh => exact absurd hh h
        | inr hh => exact hh
      rw [if_neg h]
      exact ih hrest

/-- C7.  Every OPTIONS request whose (present, hence non-empty) Origin
header appears in the configured allow-list and which carries an
Access-Control-Request-Method header is answered by the CORS gate itself:
status 200, no invocation of any downstream stage, and an
Access-Control-Allow-Methods header whose value contains PUT (exhibited by
an explicit decomposition of the value around "PUT"). -/
theorem cors_preflight_spec (trusted : List String) (req : Request)
    (hmem : req.origin ∈ trusted) (hne : req.origin ≠ "")
    (hopt : req.method = "OPTIONS") (hacr : req.acrMethod ≠ "") :
    (enableCORS trusted req).shortCircuit = some 200
  ∧ getHeader (enableCORS trusted req).headers "Access-Control-Allow-Methods"
      = some "OPTIONS, PUT, PATCH, DELETE"
  ∧ "OPTIONS, PUT, PATCH, DELETE" = "OPTIONS, " ++ "PUT" ++ ", PATCH, DELETE" := by
  have hcors : enableCORS trusted req
      = corsOriginLoop req
          (addHeader (addHeader [] "Vary" "Origin") "Vart" "Access-Control-Request-Method")
          trusted := by
    unfold enableCORS
    rw [if_pos hne]
  rw [hcors, corsOriginLoop_match req _ trusted hmem hopt hacr]
  refine ⟨rfl, ?_, by decide⟩
  rw [getHeader_setHeader_ne _ _ _ _ (by decide), getHeader_setHeader]

/-- Witness for C7: a concrete pre-flight probe from the allowed origin is
short-circuited with status 200 and the PUT-bearing methods header. -/
theorem cors_preflight_spec_witness :
    (enableCORS ["https://allowed.example"] preflightReq).shortCircuit = some 200
  ∧ getHeader (enableCORS ["https://allowed.example"] preflightReq).headers
      "Access-Control-Allow-Methods" = some "OPTIONS, PUT, PATCH, DELETE" := by
  obtain ⟨h1, h2, -⟩ := cors_preflight_spec ["https://allowed.example"] preflightReq
    (by decide) (by decide) rfl (by decide)
  exact ⟨h1, h2⟩

/-- C8.  Every response passing through the CORS stage — whatever the
origin — carries a header literally named `Vart` with value
`Access-Control-Request-Method`, and the stage never adds a
`Vary: Access-Control-Request-Method` header. -/
theorem cors_vart_header (trusted : List String) (req : Request) :
    hasHeaderPair (enableCORS trusted req).headers
      "Vart" "Access-Control-Request-Method" = true
  ∧ hasHeaderPair (enableCORS trusted req).headers
      "Vary" "Access-Control-Request-Method" = false := by
  unfold enableCORS
  by_cases h : req.origin ≠ ""
  · rw [if_pos h]
    constructor
    · rw [corsOriginLoop_preserves _ _ _ _ _ (by decide) (by decide) (by decide)]
      decide
    · rw [corsOriginLoop_preserves _ _ _ _ _ (by decide) (by decide) (by decide)]
      decide
  · rw [if_neg h]
    exact ⟨by decide, by decide⟩

/-! ## Claim C10: GET /debug/vars is registered without authorization -/

/-- A non-OPTIONS request is never short-circuited by the CORS gate. -/
theorem enableCORS_not_options (trusted : List String) (req : Request)
    (h : req.method ≠ "OPTIONS") :
    (enableCORS trusted req).shortCircuit = none := by
  unfold enableCORS
  by_cases ho : req.origin ≠ ""
  · rw [if_pos ho]
    induction trusted with
    | nil => rfl
    | cons o rest ih =>
      unfold corsOriginLoop
      by_cases hh : req.origin = o
      · rw [if_pos hh, if_neg (fun hc => h hc.1)]
      · rw [if_neg hh]
        exact ih
  · rw [if_neg ho]

/-- C10 (amended).  `GET /debug/vars` is registered with no authentication
or permission middleware in front of it: any request for it that is
admitted by the rate limiter and not rejected by the global authentication
stage — in particular one presenting no credentials at all — reaches the
`expvar` metrics handler. -/
theorem debug_vars_open_access (app : App) (clients : ClientMap) (ip : String)
    (now : ℚ) (req : Request)
    (hm : req.method = "GET") (hp : req.path = "/debug/vars")
    (hauth : req.authorization = "")
    (hlim : (rateLimitCheck app.config clients ip now).1 = true) :
    (handleRequest app clients ip now req).1 = .handlerInvoked "expvar" := by
  have hnopt : req.method ≠ "OPTIONS" := by
    rw [hm]
    decide
  have hrouter : routerDispatch app (some AnonymousUser) req = .handlerInvoked "expvar" := by
    unfold routerDispatch
    rw [hp, hm]
    rw [if_neg (by decide), if_neg (by decide), if_neg (by decide), if_neg (by decide),
        if_neg (by decide), if_neg (by decide), if_pos rfl, if_pos rfl]
  unfold handleRequest handleInner
  rw [enableCORS_not_options app.config.trustedOrigins req hnopt]
  show recoverPanicRes (if (rateLimitCheck app.config clients ip now).1 = true then
      (authenticate app req (fun ctx => routerDispatch app ctx req),
        (rateLimitCheck app.config clients ip now).2)
    else (.rateLimitExceeded, (rateLimitCheck app.config clients ip now).2)).1
    = .handlerInvoked "expvar"
  rw [if_pos hlim]
  show recoverPanicRes (authenticate app req (fun ctx => routerDispatch app ctx req))
    = .handlerInvoked "expvar"
  rw [authenticate_no_header app req _ hauth, hrouter]
  rfl

/-- Witness for C10: a credential-less request for `GET /debug/vars`
reaches the `expvar` handler through the whole pipeline. -/
theorem debug_vars_open_access_witness :
    (handleRequest sampleApp [] "1.2.3.4" 0
        { method := "GET", path := "/debug/vars", authorization := "",
          origin := "", acrMethod := "" }).1 = .handlerInvoked "expvar" :=
  debug_vars_open_access sampleApp [] "1.2.3.4" 0 _ rfl rfl rfl rfl

/-- C10 counterexample: with the rate limiter disabled (so every client
passes it), a client sending a malformed Authorization header to
`GET /debug/vars` is rejected by the global authentication stage with the
invalid-credential response and never receives the metrics counters. -/
theorem debug_vars_bad_credential_counterexample :
    (rateLimitCheck sampleApp.config [] "9.9.9.9" 0).1 = true
  ∧ (handleRequest sampleApp [] "9.9.9.9" 0
        { method := "GET", path := "/debug/vars", authorization := "Basic xyz",
          origin := "", acrMethod := "" }).1 = .invalidAuthenticationToken
  ∧ Res.invalidAuthenticationToken ≠ Res.handlerInvoked "expvar" :=
  ⟨rfl, rfl, by decide⟩

end Greenlight
